import Mathlib

/-!
Verification of the StoryPortal/ModularPortal sonification scripts.

The development shallowly embeds the two pipelines of the repository:

* `parquet_to_midi.py` — spike-table → MIDI conversion (`get_pitch_for_unit`,
  `create_midi_from_spikes`).  Python floats are modelled as rationals (ℚ);
  Python `int(...)` truncation toward zero is `pyInt`.
* `midi_to_wave.py` / `midi_to_wave_suyee.py` — MIDI → WAV rendering
  (normalization, 16-bit quantization, empty-buffer handling, and the
  synthesizer fallback chain).

The numpy global random generator used by the `random` pitch mode is modelled
by the Mersenne Twister (MT19937) algorithm that numpy's legacy `RandomState`
implements: `np.random.seed(n)` is state initialization from the scalar seed,
and `np.random.randint(lo, hi)` is the masked-rejection bounded draw, given
bounded fuel (on fuel exhaustion the draw yields 0, which is in range).
-/

namespace ModularPortal

/-! ## Python `int()` truncation on rationals -/

/-- Python `int(x)` on a float: truncation toward zero. -/
def pyInt (q : ℚ) : ℤ :=
  if 0 ≤ q then ⌊q⌋ else ⌈q⌉

/-! ## Configuration constants of `parquet_to_midi.py` (lines 10-46) -/

/-- `TIME_SCALE = 0.1`. -/
def TIME_SCALE : ℚ := 1 / 10

/-- `NOTE_DURATION = 0.05`. -/
def NOTE_DURATION : ℚ := 1 / 20

/-- `BASE_VELOCITY = 80`. -/
def BASE_VELOCITY : ℤ := 80

/-- `CUSTOM_PITCHES` dictionary: unit index → MIDI note. -/
def CUSTOM_PITCHES : ℕ → Option ℤ
  | 0 => some 60
  | 1 => some 64
  | 2 => some 67
  | 3 => some 72
  | 4 => some 55
  | 5 => some 69
  | _ => none

/-- `DEFAULT_PITCH = 60`. -/
def DEFAULT_PITCH : ℤ := 60

/-- `PITCH_RANGE = (48, 84)`. -/
def PITCH_RANGE : ℤ × ℤ := (48, 84)

/-- `MAX_UNITS = 16`. -/
def MAX_UNITS : ℕ := 16

/-! ## Mersenne Twister (MT19937), the generator behind numpy's legacy
`np.random`.  State is 624 32-bit words plus a position. -/

/-- Build the remaining words of the seeded state:
`mt[i] = (1812433253 * (mt[i-1] xor (mt[i-1] >> 30)) + i) mod 2^32`. -/
def mtInitAux : ℕ → ℕ → Array ℕ → Array ℕ
  | 0, _, acc => acc
  | n + 1, i, acc =>
    let prev := acc[acc.size - 1]!
    mtInitAux n (i + 1) (acc.push ((1812433253 * (prev ^^^ (prev >>> 30)) + i) % 2 ^ 32))

/-- `np.random.seed(n)` for a scalar seed: `init_genrand` of MT19937. -/
def mt19937Init (seed : ℕ) : Array ℕ :=
  mtInitAux 623 1 #[seed % 2 ^ 32]

/-- One twist (regeneration) pass over the 624-word key. -/
def mtTwist (key : Array ℕ) : Array ℕ := Id.run do
  let mut m := key
  for i in [0:624] do
    let y := (m[i]! &&& 0x80000000) ||| (m[(i + 1) % 624]! &&& 0x7fffffff)
    let v := m[(i + 397) % 624]! ^^^ (y >>> 1) ^^^ (if y % 2 = 1 then 0x9908b0df else 0)
    m := m.set! i v
  return m

/-- MT19937 output tempering. -/
def mtTemper (y0 : ℕ) : ℕ :=
  let y1 := y0 ^^^ (y0 >>> 11)
  let y2 := y1 ^^^ ((y1 <<< 7) &&& 0x9d2c5680)
  let y3 := y2 ^^^ ((y2 <<< 15) &&& 0xefc60000)
  y3 ^^^ (y3 >>> 18)

/-- Generator state: key plus next read position (`pos = 624` forces a twist,
as `rk_seed` leaves it). -/
structure MTState where
  key : Array ℕ
  pos : ℕ

/-- Draw one tempered 32-bit word. -/
def mtNext32 (s : MTState) : ℕ × MTState :=
  if s.pos < 624 then
    (mtTemper s.key[s.pos]!, ⟨s.key, s.pos + 1⟩)
  else
    let k := mtTwist s.key
    (mtTemper k[0]!, ⟨k, 1⟩)

/-- Draw a 64-bit word as numpy does: high 32 bits first. -/
def mtNext64 (s : MTState) : ℕ × MTState :=
  let (hi, s1) := mtNext32 s
  let (lo, s2) := mtNext32 s1
  ((hi <<< 32) ||| lo, s2)

/-- Masked-rejection bounded draw: repeatedly draw, mask, and keep the first
value `≤ rngMax`; fuel bounds the loop (exhaustion yields `0 ≤ rngMax`). -/
def mtDrawBounded : ℕ → MTState → ℕ → ℕ → ℕ
  | 0, _, _, _ => 0
  | fuel + 1, s, mask, rngMax =>
    let (v, s2) := mtNext64 s
    let w := v &&& mask
    if w ≤ rngMax then w else mtDrawBounded fuel s2 mask rngMax

/-- `np.random.seed(seed)` followed by `np.random.randint(lo, hi)`:
a uniform draw in `[lo, hi - 1]` via masked rejection. -/
def npSeededRandint (seed : ℕ) (lo hi : ℤ) : ℤ :=
  let rngMax := (hi - 1 - lo).toNat
  let mask := 2 ^ rngMax.size - 1
  lo + mtDrawBounded 64 ⟨mt19937Init seed, 624⟩ mask rngMax

/-! ## `get_pitch_for_unit` (parquet_to_midi.py lines 56-111) -/

/-- The `spread` branch (lines 80-84), parametrized by the configured range
and unit count: `int(min_pitch + (i / max(max_units - 1, 1)) * (max_pitch - min_pitch))`. -/
def spreadPitch (minPitch maxPitch : ℤ) (maxUnits : ℕ) (unitIdx : ℕ) : ℤ :=
  let normalized : ℚ := (unitIdx : ℚ) / (max (maxUnits - 1) 1 : ℕ)
  pyInt ((minPitch : ℚ) + normalized * ((maxPitch : ℚ) - (minPitch : ℚ)))

/-- The `firing_rate` branch body for a non-empty spike list (lines 95-101),
parametrized by the configured range. -/
def firingRatePitch (minPitch maxPitch : ℤ) (spikes : List ℚ) : ℤ :=
  let duration := spikes.getLast! - spikes.head!
  let firingRate : ℚ := if 0 < duration then (spikes.length : ℚ) / duration else 0
  let normalized := min (firingRate / 50) 1
  pyInt ((minPitch : ℚ) + normalized * ((maxPitch : ℚ) - (minPitch : ℚ)))

/-- `get_pitch_for_unit(unit_idx, unit_id, spike_times, mode)`: determine the
MIDI pitch for one unit under the selected mode (lines 56-111). -/
def get_pitch_for_unit (unit_idx : ℕ) (unit_id : ℕ) (spike_times : List ℚ)
    (mode : String) : ℤ :=
  if mode = "custom" then
    (CUSTOM_PITCHES unit_idx).getD DEFAULT_PITCH
  else if mode = "spread" then
    spreadPitch PITCH_RANGE.1 PITCH_RANGE.2 MAX_UNITS unit_idx
  else if mode = "octaves" then
    48 + ((unit_idx / 12) * 12 : ℕ) + ((unit_idx % 12 : ℕ) : ℤ)
  else if mode = "firing_rate" then
    if 0 < spike_times.length then
      firingRatePitch PITCH_RANGE.1 PITCH_RANGE.2 spike_times
    else DEFAULT_PITCH
  else if mode = "random" then
    npSeededRandint unit_id PITCH_RANGE.1 (PITCH_RANGE.2 + 1)
  else DEFAULT_PITCH

/-! ## Data model of the MIDI document (pretty_midi objects as used here) -/

/-- One parsed row of the spike table: `unit_id` and its (already parsed)
spike-time sequence.  The textual `parse_spike_times` decoding is upstream of
everything the claims quantify over, so rows carry numeric spike times. -/
structure Row where
  unit_id : ℕ
  spike_times : List ℚ
deriving DecidableEq, Repr

/-- A `pretty_midi.Note`: velocity, pitch, start and end times. -/
structure Note where
  velocity : ℤ
  pitch : ℤ
  start : ℚ
  finish : ℚ
deriving DecidableEq, Repr

/-- A `pretty_midi.Instrument`: program number, name, note list. -/
structure Instrument where
  program : ℤ
  name : String
  notes : List Note
deriving DecidableEq, Repr

/-- The `pretty_midi.PrettyMIDI` document built by the converter. -/
structure MidiDoc where
  initial_tempo : ℚ
  instruments : List Instrument
deriving DecidableEq, Repr

/-! ## `create_midi_from_spikes` (parquet_to_midi.py lines 114-197) -/

/-- Row selection by an index list, as polars `df[units_to_sonify]` performs
it: the rows at the given positions in order, or `none` when any index is out
of bounds — there polars raises an error before any further processing. -/
def selectIdx (rows : List Row) : List ℕ → Option (List Row)
  | [] => some []
  | i :: is =>
    match rows[i]?, selectIdx rows is with
    | some r, some rs => some (r :: rs)
    | _, _ => none

/-- Row selection (lines 134-141): `df[units_to_sonify]` when a selector is
given (raising, i.e. `none`, on an out-of-bounds index), then `df[:max_units]`
when the frame is longer than `max_units`. -/
def selectRows (rows : List Row) (units_to_sonify : Option (List ℕ))
    (max_units : ℕ) : Option (List Row) :=
  let filtered :=
    match units_to_sonify with
    | none => some rows
    | some sel => selectIdx rows sel
  match filtered with
  | none => none
  | some f => some (if max_units < f.length then f.take max_units else f)

/-- The loop body for one unit (lines 149-180): scale the spike times, pick a
pitch, and build one `Instrument` with `program = idx % 128` and one note per
spike, each `[spike_time, spike_time + note_duration)` at `base_velocity`. -/
def processRow (time_scale note_duration : ℚ) (base_velocity : ℤ)
    (pitch_mode : String) (idx : ℕ) (row : Row) : Instrument :=
  let spike_times_scaled := row.spike_times.map fun t => t * time_scale
  let pitch := get_pitch_for_unit idx row.unit_id row.spike_times pitch_mode
  { program := ((idx % 128 : ℕ) : ℤ)
    name := "Unit_" ++ toString row.unit_id
    notes := spike_times_scaled.map fun s =>
      { velocity := base_velocity, pitch := pitch, start := s, finish := s + note_duration } }

/-- The summary's `max([note.end for inst in pm.instruments for note in inst.notes])`
(line 187): Python `max` of an empty sequence raises `ValueError`. -/
def totalDuration (doc : MidiDoc) : Except String ℚ :=
  match ((doc.instruments.map fun inst => inst.notes.map Note.finish).flatten).max? with
  | some d => .ok d
  | none => .error "ValueError: max() arg is an empty sequence"

/-- Outcome of a `create_midi_from_spikes` run: the document, whether the MIDI
file write (line 184) was reached, and the summary computation (line 187),
which runs only after the write and whose failure aborts the normal return. -/
structure RunOutcome where
  doc : MidiDoc
  midiWritten : Bool
  summary : Except String ℚ

/-- `create_midi_from_spikes` (lines 114-197): select rows, build one
instrument per remaining row in order, write the MIDI file, then compute the
summary.  `pm.write` (line 184) precedes the summary (line 187), so
`midiWritten` is true even when the summary raises.  When row selection itself
raises (out-of-bounds selector index, line 135), the run aborts before the
document is built and before any write: `midiWritten` is false, `summary`
carries the selection error, and the `doc` field holds the empty placeholder
document (no document exists in that run). -/
def create_midi_from_spikes (rows : List Row) (time_scale : ℚ := 1)
    (note_duration : ℚ := 1 / 20) (base_velocity : ℤ := 80)
    (units_to_sonify : Option (List ℕ) := none) (max_units : ℕ := 16)
    (pitch_mode : String := "custom") : RunOutcome :=
  match selectRows rows units_to_sonify max_units with
  | none =>
    { doc := { initial_tempo := 120, instruments := [] }
      midiWritten := false
      summary := .error "OutOfBoundsError: gather indices are out of bounds" }
  | some chosen =>
    let doc : MidiDoc :=
      { initial_tempo := 120
        instruments := chosen.mapIdx fun idx row =>
          processRow time_scale note_duration base_velocity pitch_mode idx row }
    { doc := doc, midiWritten := true, summary := totalDuration doc }

/-! ## MIDI → WAV rendering (midi_to_wave.py, midi_to_wave_suyee.py) -/

/-- What a renderer run does after synthesis: writes 16-bit PCM data, returns
with only a warning, or raises an uncaught error. -/
inductive RenderResult where
  | wroteFile (data : List ℤ)
  | warnedNoOutput
  | raisedError (msg : String)
deriving DecidableEq, Repr

/-- Peak of a sample buffer: `np.max(np.abs(samples))` (`none` on an empty
buffer, where numpy raises). -/
def peakAbs (samples : List ℚ) : Option ℚ :=
  (samples.map fun s => |s|).max?

/-- 16-bit quantization `(samples * 32767).astype(np.int16)` of one sample. -/
def pcm16 (s : ℚ) : ℤ :=
  pyInt (s * 32767)

/-- Post-synthesis steps of `midi_to_wav_suyee` (midi_to_wave_suyee.py lines
50-61) on the synthesized buffer: guard on emptiness with a warning, else peak
normalize, quantize, and write. -/
def midi_to_wav_suyee (samples : List ℚ) : RenderResult :=
  if 0 < samples.length then
    let peak := (peakAbs samples).getD 0
    let normalized := samples.map fun s => s / peak
    .wroteFile (normalized.map pcm16)
  else .warnedNoOutput

/-- Post-synthesis steps of `midi_to_wav` (midi_to_wave.py lines 33-42): no
emptiness guard; `np.max(np.abs(...))` on an empty buffer raises `ValueError`. -/
def midi_to_wav (samples : List ℚ) : RenderResult :=
  match peakAbs samples with
  | none => .raisedError "ValueError: zero-size array to reduction operation maximum"
  | some peak => .wroteFile ((samples.map fun s => s / peak).map pcm16)

/-- The `midi_to_wav_suyee` synthesis fallback chain (midi_to_wave_suyee.py
lines 34-48).  The first two strategies (`pm.fluidsynth` with the configured
soundfont, then with the default bank) may fail with an exception of any type;
each failure is caught by the `except (ImportError, OSError, Exception)`
clauses.  Returns the chosen buffer and how many times `pm.synthesize` (the
built-in path) was invoked. -/
def synthFallback {e1 e2 : Type} (fluidsynthSf2 : Except e1 (List ℚ))
    (fluidsynthDefault : Except e2 (List ℚ)) (builtin : List ℚ) : List ℚ × ℕ :=
  match fluidsynthSf2 with
  | .ok a => (a, 0)
  | .error _ =>
    match fluidsynthDefault with
    | .ok a => (a, 0)
    | .error _ => (builtin, 1)

/-! ## Specification-side definitions (stated from the spec's words, to be
compared with the embeddings above) -/

/-- The `firing_rate` pitch as the specification words it: firing rate is
`count(spikes) / (last_spike - first_spike)` when that duration is positive
and 0 otherwise; `firing_rate / 50.0` is clamped at 1.0; the result is the
integer truncation of `min_pitch + clamped * (max_pitch - min_pitch)`; an
empty spike sequence yields the configured default pitch. -/
def firingRatePitchSpec (spikes : List ℚ) : ℤ :=
  if spikes.isEmpty then DEFAULT_PITCH
  else
    let duration := spikes.getLast! - spikes.head!
    let firingRate : ℚ := if 0 < duration then (spikes.length : ℚ) / duration else 0
    let clamped := min (firingRate / 50) 1
    pyInt ((PITCH_RANGE.1 : ℚ) + clamped * ((PITCH_RANGE.2 : ℚ) - (PITCH_RANGE.1 : ℚ)))

/-- A concrete 17-row table, each unit with the single spike time 0. -/
def seventeenRows : List Row :=
  (List.range 17).map fun i => Row.mk i [0]

/-! ## Helper lemmas on `pyInt` (Python truncation) -/

theorem pyInt_of_nonneg {q : ℚ} (h : 0 ≤ q) : pyInt q = ⌊q⌋ :=
  if_pos h

theorem floor_le_pyInt (q : ℚ) : ⌊q⌋ ≤ pyInt q := by
  unfold pyInt
  split
  · exact le_refl _
  · exact Int.floor_le_ceil q

theorem pyInt_le_ceil (q : ℚ) : pyInt q ≤ ⌈q⌉ := by
  unfold pyInt
  split
  · exact Int.floor_le_ceil q
  · exact le_refl _

theorem le_pyInt_of_le {n : ℤ} {q : ℚ} (h : (n : ℚ) ≤ q) : n ≤ pyInt q :=
  le_trans (Int.le_floor.mpr h) (floor_le_pyInt q)

theorem pyInt_le_of_le {n : ℤ} {q : ℚ} (h : q ≤ (n : ℚ)) : pyInt q ≤ n :=
  le_trans (pyInt_le_ceil q) (Int.ceil_le.mpr h)

theorem pyInt_lt_of_nonneg_of_lt {n : ℤ} {q : ℚ} (h0 : 0 ≤ q) (h : q < (n : ℚ)) :
    pyInt q < n := by
  rw [pyInt_of_nonneg h0]
  exact Int.floor_lt.mpr h

theorem pyInt_mono {q r : ℚ} (h : q ≤ r) : pyInt q ≤ pyInt r := by
  unfold pyInt
  by_cases hq : 0 ≤ q
  · rw [if_pos hq, if_pos (le_trans hq h)]
    exact Int.floor_le_floor h
  · rw [if_neg hq]
    by_cases hr : 0 ≤ r
    · rw [if_pos hr]
      have hcq : ⌈q⌉ ≤ (0 : ℤ) :=
        Int.ceil_le.mpr (show q ≤ ((0 : ℤ) : ℚ) by exact_mod_cast le_of_lt (not_le.mp hq))
      exact le_trans hcq (Int.le_floor.mpr (by exact_mod_cast hr))
    · rw [if_neg hr]
      exact Int.ceil_le_ceil h

/-! ## Helper lemmas on the bounded random draw -/

theorem mtDrawBounded_le (fuel : ℕ) (s : MTState) (mask rngMax : ℕ) :
    mtDrawBounded fuel s mask rngMax ≤ rngMax := by
  induction fuel generalizing s with
  | zero => simp [mtDrawBounded]
  | succ n ih =>
    rw [mtDrawBounded]
    dsimp only
    split
    · assumption
    · exact ih _

theorem npSeededRandint_bounds (seed : ℕ) (lo hi : ℤ) :
    lo ≤ npSeededRandint seed lo hi ∧
      npSeededRandint seed lo hi ≤ lo + (((hi - 1 - lo).toNat : ℕ) : ℤ) := by
  unfold npSeededRandint
  constructor
  · exact le_add_of_nonneg_right (Int.ofNat_nonneg _)
  · exact add_le_add_left (by exact_mod_cast mtDrawBounded_le 64 _ _ _) lo

/-! ## Claim theorems -/

/-- C8: in `octaves` mode the returned pitch equals
`48 + 12 * (index // 12) + (index % 12)`; the pitch for index 0 is 48 and the
pitch for index 12 is the pitch for index 0 plus 12. -/
theorem octaves_pitch_formula (i uid : ℕ) (l : List ℚ) :
    get_pitch_for_unit i uid l "octaves" = 48 + 12 * ((i / 12 : ℕ) : ℤ) + ((i % 12 : ℕ) : ℤ) ∧
    get_pitch_for_unit 0 uid l "octaves" = 48 ∧
    get_pitch_for_unit 12 uid l "octaves" = get_pitch_for_unit 0 uid l "octaves" + 12 := by
  refine ⟨?f, ?z, ?t⟩
  · simp [get_pitch_for_unit]
    ring
  · simp [get_pitch_for_unit]
  · simp [get_pitch_for_unit]

/-- C9: for every mode that is none of `custom`, `spread`, `octaves`,
`firing_rate`, `random`, and any index, identifier and spike sequence,
`get_pitch_for_unit` returns the configured default pitch. -/
theorem unrecognized_mode_default (mode : String) (i uid : ℕ) (l : List ℚ)
    (h : mode ≠ "custom" ∧ mode ≠ "spread" ∧ mode ≠ "octaves" ∧
      mode ≠ "firing_rate" ∧ mode ≠ "random") :
    get_pitch_for_unit i uid l mode = DEFAULT_PITCH := by
  obtain ⟨h1, h2, h3, h4, h5⟩ := h
  simp [get_pitch_for_unit, h1, h2, h3, h4, h5]

/-- Witness for C9 at the concrete mode `"melody"`. -/
theorem unrecognized_mode_default_witness :
    ("melody" ≠ "custom" ∧ "melody" ≠ "spread" ∧ "melody" ≠ "octaves" ∧
      "melody" ≠ "firing_rate" ∧ "melody" ≠ "random") ∧
    get_pitch_for_unit 4 9 [1, 2] "melody" = DEFAULT_PITCH :=
  ⟨by decide, unrecognized_mode_default "melody" 4 9 [1, 2] (by decide)⟩

/-- C5: in `firing_rate` mode `get_pitch_for_unit` agrees, for every input,
with the specification-side description `firingRatePitchSpec`: rate
`count / (last - first)` when the duration is positive else 0, `rate / 50`
clamped at 1, linear interpolation into the configured range truncated to an
integer, and the configured default on an empty spike sequence. -/
theorem firing_rate_matches_spec (i uid : ℕ) (l : List ℚ) :
    get_pitch_for_unit i uid l "firing_rate" = firingRatePitchSpec l := by
  cases l with
  | nil => simp [get_pitch_for_unit, firingRatePitchSpec, DEFAULT_PITCH]
  | cons a as =>
    simp [get_pitch_for_unit, firingRatePitchSpec, firingRatePitch]

/-- C4: in the synthesis fallback chain the first successful strategy wins and
every failure is caught whatever its error value (of arbitrary type); in
particular when both `pm.fluidsynth` calls fail the built-in synthesizer is
invoked exactly once and provides the result. -/
theorem fallback_chain_first_success {e1 e2 : Type} (s1 : Except e1 (List ℚ))
    (s2 : Except e2 (List ℚ)) (b : List ℚ) :
    (∀ a, s1 = .ok a → synthFallback s1 s2 b = (a, 0)) ∧
    (∀ x a, s1 = .error x → s2 = .ok a → synthFallback s1 s2 b = (a, 0)) ∧
    (∀ x y, s1 = .error x → s2 = .error y → synthFallback s1 s2 b = (b, 1)) := by
  refine ⟨?s1, ?s2, ?s3⟩
  · intro a h
    subst h
    rfl
  · intro x a h1 h2
    subst h1
    subst h2
    rfl
  · intro x y h1 h2
    subst h1
    subst h2
    rfl

/-- Witness for C4: with both synthesizer calls failing, the built-in
synthesizer output is used and invoked exactly once. -/
theorem fallback_chain_first_success_witness :
    synthFallback (Except.error () : Except Unit (List ℚ))
      (Except.error "no fluidsynth" : Except String (List ℚ)) [1, 2] = ([1, 2], 1) :=
  (fallback_chain_first_success (Except.error ()) (Except.error "no fluidsynth")
    [1, 2]).2.2 () "no fluidsynth" rfl rfl

/-- C6: `random` mode is deterministic in the unit identifier — the pitch does
not depend on the positional index or the spike sequence, so two calls with
the same identifier agree — and the seeded bounded draw over any range
`[lo, hi]` with `lo ≤ hi` lies within that range inclusively; with the
configured range the returned pitch lies in `[48, 84]`. -/
theorem random_mode_deterministic (uid i1 i2 : ℕ) (l1 l2 : List ℚ) (lo hi : ℤ)
    (h : lo ≤ hi) :
    get_pitch_for_unit i1 uid l1 "random" = get_pitch_for_unit i2 uid l2 "random" ∧
    lo ≤ npSeededRandint uid lo (hi + 1) ∧ npSeededRandint uid lo (hi + 1) ≤ hi ∧
    48 ≤ get_pitch_for_unit i1 uid l1 "random" ∧
    get_pitch_for_unit i1 uid l1 "random" ≤ 84 := by
  have hb := npSeededRandint_bounds uid lo (hi + 1)
  have hb48 := npSeededRandint_bounds uid 48 85
  have hg : get_pitch_for_unit i1 uid l1 "random" = npSeededRandint uid 48 85 := by
    simp [get_pitch_for_unit, PITCH_RANGE]
  have hg2 : get_pitch_for_unit i2 uid l2 "random" = npSeededRandint uid 48 85 := by
    simp [get_pitch_for_unit, PITCH_RANGE]
  refine ⟨hg.trans hg2.symm, hb.1, ?ub, ?r48, ?r84⟩
  · refine le_trans hb.2 ?hle
    omega
  · rw [hg]
    exact hb48.1
  · rw [hg]
    refine le_trans hb48.2 ?hle2
    omega

/-- Witness for C6 at identifier 5, indices 0 and 3, distinct spike lists, and
the configured range `[48, 84]`. -/
theorem random_mode_deterministic_witness :
    (48 : ℤ) ≤ 84 ∧
    (get_pitch_for_unit 0 5 [] "random" = get_pitch_for_unit 3 5 [9, 9] "random" ∧
      48 ≤ npSeededRandint 5 48 (84 + 1) ∧ npSeededRandint 5 48 (84 + 1) ≤ 84 ∧
      48 ≤ get_pitch_for_unit 0 5 [] "random" ∧
      get_pitch_for_unit 0 5 [] "random" ≤ 84) :=
  ⟨by decide, random_mode_deterministic 5 0 3 [] [9, 9] 48 84 (by decide)⟩

/-- C7: the `spread` pitch is the integer truncation of
`min_pitch + (i / max(max_units - 1, 1)) * (max_pitch - min_pitch)`, is
monotonically non-decreasing in the index on `[0, max_units - 1]`, stays in
`[min_pitch, max_pitch]` there, and is exactly what `get_pitch_for_unit`
returns in `spread` mode with the configured range and unit count. -/
theorem spread_pitch_props (minP maxP : ℤ) (maxUnits : ℕ) (i j uid : ℕ) (l : List ℚ)
    (hrange : minP ≤ maxP) (hij : i ≤ j) (hj : j ≤ maxUnits - 1) :
    spreadPitch minP maxP maxUnits i =
      pyInt ((minP : ℚ) + ((i : ℚ) / ((max (maxUnits - 1) 1 : ℕ) : ℚ)) *
        ((maxP : ℚ) - (minP : ℚ))) ∧
    spreadPitch minP maxP maxUnits i ≤ spreadPitch minP maxP maxUnits j ∧
    minP ≤ spreadPitch minP maxP maxUnits i ∧
    spreadPitch minP maxP maxUnits i ≤ maxP ∧
    get_pitch_for_unit i uid l "spread" =
      spreadPitch PITCH_RANGE.1 PITCH_RANGE.2 MAX_UNITS i := by
  have hM1 : 1 ≤ max (maxUnits - 1) 1 := le_max_right _ _
  have hM0 : (0 : ℚ) < ((max (maxUnits - 1) 1 : ℕ) : ℚ) := by exact_mod_cast hM1
  have hd : (0 : ℚ) ≤ (maxP : ℚ) - (minP : ℚ) := by
    rw [sub_nonneg]
    exact_mod_cast hrange
  have hiM : (i : ℚ) / ((max (maxUnits - 1) 1 : ℕ) : ℚ) ≤ 1 := by
    rw [div_le_one hM0]
    have : i ≤ max (maxUnits - 1) 1 := le_trans (le_trans hij hj) (le_max_left _ _)
    exact_mod_cast this
  refine ⟨rfl, ?mono, ?lo, ?hi, ?link⟩
  · apply pyInt_mono
    apply add_le_add_left
    apply mul_le_mul_of_nonneg_right _ hd
    refine (div_le_div_iff_of_pos_right hM0).mpr ?hcast
    exact_mod_cast hij
  · apply le_pyInt_of_le
    apply le_add_of_nonneg_right
    exact mul_nonneg (div_nonneg (Nat.cast_nonneg i) (le_of_lt hM0)) hd
  · apply pyInt_le_of_le
    have hmul : (i : ℚ) / ((max (maxUnits - 1) 1 : ℕ) : ℚ) * ((maxP : ℚ) - (minP : ℚ)) ≤
        (maxP : ℚ) - (minP : ℚ) := by
      calc (i : ℚ) / ((max (maxUnits - 1) 1 : ℕ) : ℚ) * ((maxP : ℚ) - (minP : ℚ)) ≤
          1 * ((maxP : ℚ) - (minP : ℚ)) := mul_le_mul_of_nonneg_right hiM hd
        _ = (maxP : ℚ) - (minP : ℚ) := one_mul _
    linarith
  · simp [get_pitch_for_unit]

/-- Witness for C7 at the configured range `(48, 84)`, 16 units, indices 3 ≤ 5. -/
theorem spread_pitch_props_witness :
    ((48 : ℤ) ≤ 84 ∧ (3 : ℕ) ≤ 5 ∧ (5 : ℕ) ≤ 16 - 1) ∧
    (spreadPitch 48 84 16 3 =
      pyInt (((48 : ℤ) : ℚ) + ((3 : ℕ) : ℚ) / ((max (16 - 1) 1 : ℕ) : ℚ) *
        (((84 : ℤ) : ℚ) - ((48 : ℤ) : ℚ))) ∧
    spreadPitch 48 84 16 3 ≤ spreadPitch 48 84 16 5 ∧
    (48 : ℤ) ≤ spreadPitch 48 84 16 3 ∧
    spreadPitch 48 84 16 3 ≤ 84 ∧
    get_pitch_for_unit 3 0 [] "spread" =
      spreadPitch PITCH_RANGE.1 PITCH_RANGE.2 MAX_UNITS 3) :=
  ⟨⟨by decide, by decide, by decide⟩,
    spread_pitch_props 48 84 16 3 5 0 [] (by decide) (by decide) (by decide)⟩

/-- C2 counterexample: `octaves` mode at index 80 returns 128, which is
outside the MIDI range `[0, 127]`. -/
theorem pitch_range_counterexample :
    get_pitch_for_unit 80 0 [] "octaves" = 128 ∧
    ¬ get_pitch_for_unit 80 0 [] "octaves" ≤ 127 := by
  decide

/-- C2 amended: `get_pitch_for_unit` returns a pitch in `[0, 127]` for every
index, identifier, spike sequence and mode, provided the index is at most 33
when the mode is `spread` and at most 79 when the mode is `octaves` (beyond
those indices these two modes exceed 127). -/
theorem pitch_in_midi_range (i uid : ℕ) (l : List ℚ) (mode : String)
    (hspread : mode = "spread" → i ≤ 33) (hoct : mode = "octaves" → i ≤ 79) :
    0 ≤ get_pitch_for_unit i uid l mode ∧ get_pitch_for_unit i uid l mode ≤ 127 := by
  unfold get_pitch_for_unit
  split_ifs with h1 h2 h3 h4 h5 h6
  · rcases i with _ | _ | _ | _ | _ | _ | k <;>
      simp [CUSTOM_PITCHES, DEFAULT_PITCH]
  · have hi33 : i ≤ 33 := hspread h2
    have hiq : (i : ℚ) ≤ 33 := by exact_mod_cast hi33
    simp only [PITCH_RANGE, MAX_UNITS, spreadPitch]
    norm_num
    have hq0 : (0 : ℚ) ≤ 48 + (i : ℚ) / 15 * 36 := by positivity
    constructor
    · refine le_pyInt_of_le ?lo
      push_cast
      positivity
    · have hlt : (48 : ℚ) + (i : ℚ) / 15 * 36 < ((128 : ℤ) : ℚ) := by
        have : (i : ℚ) / 15 * 36 ≤ 33 / 15 * 36 := by
          apply mul_le_mul_of_nonneg_right _ (by norm_num)
          apply div_le_div_of_nonneg_right hiq (by norm_num)
        push_cast
        linarith
      have := pyInt_lt_of_nonneg_of_lt (by linarith) hlt
      omega
  · have hi79 : i ≤ 79 := hoct h3
    constructor
    · positivity
    · have hdm := Nat.div_add_mod i 12
      push_cast
      omega
  · simp only [PITCH_RANGE, firingRatePitch]
    set dur := l.getLast! - l.head! with hdur
    have hfr : (0 : ℚ) ≤ if 0 < dur then (l.length : ℚ) / dur else 0 := by
      split
      · positivity
      · exact le_refl 0
    set fr : ℚ := if 0 < dur then (l.length : ℚ) / dur else 0 with hfrdef
    have hmin0 : (0 : ℚ) ≤ min (fr / 50) 1 := le_min (by positivity) zero_le_one
    have hmin1 : min (fr / 50) 1 ≤ 1 := min_le_right _ _
    norm_num
    constructor
    · refine le_pyInt_of_le ?flo
      push_cast
      nlinarith
    · refine pyInt_le_of_le ?fhi
      push_cast
      nlinarith
  · simp only [DEFAULT_PITCH]
    omega
  · simp only [PITCH_RANGE]
    have hb := npSeededRandint_bounds uid 48 (84 + 1)
    omega
  · simp only [DEFAULT_PITCH]
    omega

/-- Witness for C2 (amended) at index 100 in `custom` mode. -/
theorem pitch_in_midi_range_witness :
    (("custom" = "spread" → (100 : ℕ) ≤ 33) ∧
      ("custom" = "octaves" → (100 : ℕ) ≤ 79)) ∧
    (0 ≤ get_pitch_for_unit 100 2 [] "custom" ∧
      get_pitch_for_unit 100 2 [] "custom" ≤ 127) :=
  ⟨⟨by decide, by decide⟩, pitch_in_midi_range 100 2 [] "custom" (by decide) (by decide)⟩

/-! ## Helper lemmas on row selection and instrument construction -/

theorem selectRows_none_of_le {rows : List Row} {mu : ℕ} (hlen : rows.length ≤ mu) :
    selectRows rows none mu = some rows := by
  simp [selectRows, Nat.not_lt.mpr hlen]

theorem create_instruments_eq (rows : List Row) (ts nd : ℚ) (bv : ℤ)
    (sel : Option (List ℕ)) (mu : ℕ) (mode : String) (chosen : List Row)
    (hsel : selectRows rows sel mu = some chosen) :
    (create_midi_from_spikes rows ts nd bv sel mu mode).doc.instruments =
      chosen.mapIdx fun idx row => processRow ts nd bv mode idx row := by
  unfold create_midi_from_spikes
  rw [hsel]

theorem create_midiWritten_eq (rows : List Row) (ts nd : ℚ) (bv : ℤ)
    (sel : Option (List ℕ)) (mu : ℕ) (mode : String) (chosen : List Row)
    (hsel : selectRows rows sel mu = some chosen) :
    (create_midi_from_spikes rows ts nd bv sel mu mode).midiWritten = true := by
  unfold create_midi_from_spikes
  rw [hsel]

theorem create_summary_eq (rows : List Row) (ts nd : ℚ) (bv : ℤ)
    (sel : Option (List ℕ)) (mu : ℕ) (mode : String) (chosen : List Row)
    (hsel : selectRows rows sel mu = some chosen) :
    (create_midi_from_spikes rows ts nd bv sel mu mode).summary =
      totalDuration (create_midi_from_spikes rows ts nd bv sel mu mode).doc := by
  unfold create_midi_from_spikes
  rw [hsel]

theorem totalDuration_eq_error_of_no_notes (doc : MidiDoc)
    (h : ∀ inst ∈ doc.instruments, inst.notes = []) :
    totalDuration doc = .error "ValueError: max() arg is an empty sequence" := by
  unfold totalDuration
  have hflat : (doc.instruments.map fun inst => inst.notes.map Note.finish).flatten = [] := by
    rw [List.flatten_eq_nil_iff]
    intro x hx
    rcases List.mem_map.mp hx with ⟨inst, hinst, rfl⟩
    rw [h inst hinst]
    rfl
  rw [hflat]
  rfl

/-- C1 counterexample: a 17-row table, each unit with exactly one spike at
time 0, yields only 16 instruments (the `max_units` truncation), not 17. -/
theorem create_midi_counterexample :
    seventeenRows.length = 17 ∧
    (∀ r ∈ seventeenRows, r.spike_times = [(0 : ℚ)]) ∧
    (create_midi_from_spikes seventeenRows 1 (1 / 20) 80 none 16
      "custom").doc.instruments.length = 16 := by
  refine ⟨rfl, by decide, ?len⟩
  rw [create_instruments_eq seventeenRows 1 (1 / 20) 80 none 16 "custom"
    (seventeenRows.take 16) rfl, List.length_mapIdx]
  rfl

/-- C1 amended: for a table of N units each with exactly one spike at time t,
when no unit filter is given and N is at most `max_units`, the document has
exactly N instruments, and the instrument at index i has program `i mod 128`
and exactly one note with `start = t * time_scale`,
`end = start + note_duration`, and velocity `base_velocity`. -/
theorem create_midi_one_note_per_unit (rows : List Row) (t ts nd : ℚ) (bv : ℤ)
    (mu : ℕ) (mode : String) (out : RunOutcome)
    (hout : out = create_midi_from_spikes rows ts nd bv none mu mode)
    (hall : ∀ r ∈ rows, r.spike_times = [t]) (hlen : rows.length ≤ mu) :
    out.doc.instruments.length = rows.length ∧
    ∀ i, i < rows.length →
      ∃ inst, out.doc.instruments[i]? = some inst ∧
        inst.program = ((i % 128 : ℕ) : ℤ) ∧
        ∃ p : ℤ, inst.notes = [Note.mk bv p (t * ts) (t * ts + nd)] := by
  subst hout
  have hinst :=
    create_instruments_eq rows ts nd bv none mu mode rows (selectRows_none_of_le hlen)
  have hL : (create_midi_from_spikes rows ts nd bv none mu mode).doc.instruments.length =
      rows.length := by
    rw [hinst]
    exact List.length_mapIdx
  refine ⟨hL, ?main⟩
  intro i hi
  have hi2 : i < ((rows.mapIdx fun idx row => processRow ts nd bv mode idx row).length) := by
    rw [List.length_mapIdx]
    exact hi
  refine ⟨(rows.mapIdx fun idx row => processRow ts nd bv mode idx row).get ⟨i, hi2⟩,
    ?some, ?rest⟩
  · rw [hinst]
    rw [List.getElem?_eq_getElem hi2]
    rfl
  · rw [List.get_mapIdx rows _ i hi]
    have hrow : rows[i].spike_times = [t] :=
      hall rows[i] (List.getElem_mem hi)
    refine ⟨rfl, ?note⟩
    refine ⟨get_pitch_for_unit i rows[i].unit_id rows[i].spike_times mode, ?eq⟩
    simp [processRow, hrow]

/-- Witness for C1 (amended): one unit with one spike at time 2, converted at
`time_scale = 1/10`, `note_duration = 1/20`, `base_velocity = 80`. -/
theorem create_midi_one_note_per_unit_witness :
    ((∀ r ∈ [Row.mk 3 [2]], r.spike_times = [(2 : ℚ)]) ∧
      ([Row.mk 3 [2]] : List Row).length ≤ 16) ∧
    ((create_midi_from_spikes [Row.mk 3 [2]] (1 / 10) (1 / 20) 80 none 16
        "custom").doc.instruments.length = ([Row.mk 3 [2]] : List Row).length ∧
      ∀ i, i < ([Row.mk 3 [2]] : List Row).length →
        ∃ inst, (create_midi_from_spikes [Row.mk 3 [2]] (1 / 10) (1 / 20) 80 none 16
            "custom").doc.instruments[i]? = some inst ∧
          inst.program = ((i % 128 : ℕ) : ℤ) ∧
          ∃ p : ℤ, inst.notes = [Note.mk 80 p (2 * (1 / 10)) (2 * (1 / 10) + 1 / 20)]) :=
  ⟨⟨by decide, by decide⟩,
    create_midi_one_note_per_unit [Row.mk 3 [2]] 2 (1 / 10) (1 / 20) 80 16 "custom"
      (create_midi_from_spikes [Row.mk 3 [2]] (1 / 10) (1 / 20) 80 none 16 "custom")
      rfl (by decide) (by decide)⟩

/-- C10: in any run whose row selection succeeds and whose processed units
(the rows remaining after the optional filter and the `max_units` truncation)
all have empty spike sequences, every emitted instrument has zero notes, the
MIDI file write is reached (it precedes the summary), and the summary's `max`
over all note ends raises, so the run does not return normally. -/
theorem all_empty_spikes_raises (rows : List Row) (ts nd : ℚ) (bv : ℤ)
    (sel : Option (List ℕ)) (mu : ℕ) (mode : String) (chosen : List Row)
    (out : RunOutcome)
    (hout : out = create_midi_from_spikes rows ts nd bv sel mu mode)
    (hsel : selectRows rows sel mu = some chosen)
    (hall : ∀ r ∈ chosen, r.spike_times = []) :
    out.midiWritten = true ∧
    (∀ inst ∈ out.doc.instruments, inst.notes = []) ∧
    out.summary = .error "ValueError: max() arg is an empty sequence" := by
  subst hout
  have hinst := create_instruments_eq rows ts nd bv sel mu mode chosen hsel
  have hmem : ∀ inst ∈ (create_midi_from_spikes rows ts nd bv sel mu
      mode).doc.instruments, inst.notes = [] := by
    intro inst hm
    rw [hinst] at hm
    rcases List.mem_iff_get.mp hm with ⟨⟨i, hi⟩, hgi⟩
    have hi2 : i < chosen.length := by
      have := hi
      rwa [List.length_mapIdx] at this
    rw [List.get_mapIdx _ _ i hi2] at hgi
    have hrow : chosen[i].spike_times = [] := hall _ (List.getElem_mem hi2)
    rw [← hgi]
    simp [processRow, hrow]
  refine ⟨create_midiWritten_eq rows ts nd bv sel mu mode chosen hsel, hmem, ?summary⟩
  rw [create_summary_eq rows ts nd bv sel mu mode chosen hsel]
  exact totalDuration_eq_error_of_no_notes
    (create_midi_from_spikes rows ts nd bv sel mu mode).doc hmem

/-- Witness for C10: a two-row table whose second row has a spike but is
truncated away by `max_units = 1`, so every processed unit is empty. -/
theorem all_empty_spikes_raises_witness :
    (selectRows [Row.mk 1 [], Row.mk 2 [5]] none 1 = some [Row.mk 1 []] ∧
      ∀ r ∈ [Row.mk 1 []], r.spike_times = ([] : List ℚ)) ∧
    ((create_midi_from_spikes [Row.mk 1 [], Row.mk 2 [5]] (1 / 10) (1 / 20) 80 none 1
        "custom").midiWritten = true ∧
      (∀ inst ∈ (create_midi_from_spikes [Row.mk 1 [], Row.mk 2 [5]] (1 / 10) (1 / 20) 80
          none 1 "custom").doc.instruments, inst.notes = []) ∧
      (create_midi_from_spikes [Row.mk 1 [], Row.mk 2 [5]] (1 / 10) (1 / 20) 80 none 1
        "custom").summary = .error "ValueError: max() arg is an empty sequence") :=
  ⟨⟨by decide, by decide⟩,
    all_empty_spikes_raises [Row.mk 1 [], Row.mk 2 [5]] (1 / 10) (1 / 20) 80 none 1
      "custom" [Row.mk 1 []]
      (create_midi_from_spikes [Row.mk 1 [], Row.mk 2 [5]] (1 / 10) (1 / 20) 80 none 1
        "custom")
      rfl (by decide) (by decide)⟩

/-- C3 counterexample: on an empty synthesized buffer the plain renderer
`midi_to_wav` raises (numpy `max` of an empty array), it does not warn and
return. -/
theorem renderer_empty_counterexample :
    midi_to_wav [] =
      .raisedError "ValueError: zero-size array to reduction operation maximum" ∧
    midi_to_wav [] ≠ RenderResult.warnedNoOutput := by
  decide

/-- C3 amended: on an empty synthesized buffer the suyee renderer emits a
warning and returns without writing, while the plain renderer raises an
uncaught error (also writing nothing); on a non-empty buffer both divide every
sample by the buffer's maximum absolute value before 16-bit quantization. -/
theorem renderer_empty_and_normalize (samples : List ℚ) :
    (samples = [] → midi_to_wav_suyee samples = .warnedNoOutput ∧
      midi_to_wav samples =
        .raisedError "ValueError: zero-size array to reduction operation maximum") ∧
    (samples ≠ [] → ∃ peak, peakAbs samples = some peak ∧
      midi_to_wav_suyee samples =
        .wroteFile ((samples.map fun s => s / peak).map pcm16) ∧
      midi_to_wav samples =
        .wroteFile ((samples.map fun s => s / peak).map pcm16)) := by
  constructor
  · rintro rfl
    exact ⟨rfl, rfl⟩
  · intro h
    have hne : (samples.map fun s => |s|) ≠ [] := by
      simp [h]
    obtain ⟨p, hp⟩ : ∃ p, peakAbs samples = some p := by
      unfold peakAbs
      cases hmax : (samples.map fun s => |s|).max? with
      | none => exact absurd (List.max?_eq_none_iff.mp hmax) hne
      | some p => exact ⟨p, rfl⟩
    refine ⟨p, hp, ?su, ?pl⟩
    · unfold midi_to_wav_suyee
      rw [if_pos (List.length_pos.mpr h), hp]
      rfl
    · unfold midi_to_wav
      rw [hp]

/-- Witness for C3 (amended) at the empty buffer. -/
theorem renderer_empty_and_normalize_witness :
    ([] : List ℚ) = [] ∧
    (midi_to_wav_suyee [] = .warnedNoOutput ∧
      midi_to_wav [] =
        .raisedError "ValueError: zero-size array to reduction operation maximum") :=
  ⟨rfl, (renderer_empty_and_normalize []).1 rfl⟩

end ModularPortal
